import Mathlib

/-!
Verification development for the SpiderFoot event-driven plugin dispatch core
and its modules.  Python functions from `sflib.py` and the `modules/sfp_*.py`
files are shallowly embedded as executable Lean definitions; external
collaborators (HTTP fetches, DNS resolution, sockets, the scan-status store)
appear as explicit oracle parameters, so that each embedded function is a pure
function of its inputs, its per-scan state and the oracle answers.
-/

/-- A tuple recorded for every `notifyListeners` call a module makes:
the emitted event's type, its data payload and the emitting module's name
(`generatedBy`). -/
structure Emit where
  etype : String
  data : String
  genBy : String
deriving DecidableEq, Repr

/-- The fields of a delivered event that module `handleEvent` bodies read:
`event.eventType`, `event.data` and `event.module` (the source module name). -/
structure SFEvent where
  eventType : String
  data : String
  module : String
deriving DecidableEq, Repr

/-! ## A small regular-expression engine

`SpiderFoot.targetType` in `sflib.py` matches the seed value against an
ordered list of anchored Python regexes.  We embed those regexes with a
Brzozowski-derivative matcher.  Every pattern in the list is anchored with
`^` and `$`, so `re.match` on it is exactly a full match.  Character classes
are embedded as Boolean predicates; the `re.IGNORECASE` flag is folded into
the classes (both letter cases included). -/

inductive Rx where
  | emp : Rx
  | eps : Rx
  | cls (p : Char → Bool) : Rx
  | seq (a b : Rx) : Rx
  | alt (a b : Rx) : Rx
  | star (a : Rx) : Rx

/-- Does the expression accept the empty string? -/
def Rx.nullable : Rx → Bool
  | .emp => false
  | .eps => true
  | .cls _ => false
  | .seq a b => a.nullable && b.nullable
  | .alt a b => a.nullable || b.nullable
  | .star _ => true

/-- Brzozowski derivative with respect to one character. -/
def Rx.deriv : Rx → Char → Rx
  | .emp, _ => .emp
  | .eps, _ => .emp
  | .cls p, c => if p c then .eps else .emp
  | .seq a b, c =>
      if a.nullable then .alt (.seq (a.deriv c) b) (b.deriv c)
      else .seq (a.deriv c) b
  | .alt a b, c => .alt (a.deriv c) (b.deriv c)
  | .star a, c => .seq (a.deriv c) (.star a)

/-- Full match of a character list. -/
def Rx.matchList : Rx → List Char → Bool
  | r, [] => r.nullable
  | r, c :: cs => (r.deriv c).matchList cs

/-- Full match of a string (all the embedded patterns are `^...$`-anchored,
so Python `re.match` on them is a full match). -/
def Rx.matchStr (r : Rx) (s : String) : Bool :=
  r.matchList s.data

/-- One or more repetitions: `x+`. -/
def Rx.plus (r : Rx) : Rx := .seq r (.star r)

/-- Zero or one repetition: `x?`. -/
def Rx.opt (r : Rx) : Rx := .alt .eps r

/-- Exactly `n` repetitions. -/
def Rx.repN (r : Rx) : Nat → Rx
  | 0 => .eps
  | n + 1 => .seq r (r.repN n)

/-- At most `n` repetitions. -/
def Rx.repUpTo (r : Rx) : Nat → Rx
  | 0 => .eps
  | n + 1 => Rx.opt (.seq r (r.repUpTo n))

/-- Between 1 and 3 repetitions, the regex idiom used by the IPv4 octets. -/
def Rx.rep13 (r : Rx) : Rx := .seq r (Rx.repUpTo r 2)

/-- Character class `[0-9]`. -/
def rxDigit : Rx := .cls Char.isDigit

/-- A literal character. -/
def rxLit (c : Char) : Rx := .cls (fun d => d == c)

/-- The `.` metacharacter: any character except a newline (no DOTALL flag). -/
def rxAny : Rx := .cls (fun c => c != '\n')

/-- Character class `\s` (whitespace). -/
def rxWs : Rx := .cls Char.isWhitespace

/-- Pattern `[0-9]{1,3}\.[0-9]{1,3}\.[0-9]{1,3}\.[0-9]{1,3}` mapped to
IP_ADDRESS. -/
def reIpAddress : Rx :=
  .seq (Rx.rep13 rxDigit) (.seq (rxLit '.')
    (.seq (Rx.rep13 rxDigit) (.seq (rxLit '.')
      (.seq (Rx.rep13 rxDigit) (.seq (rxLit '.') (Rx.rep13 rxDigit))))))

/-- Pattern `[0-9]{1,3}\.[0-9]{1,3}\.[0-9]{1,3}\.[0-9]{1,3}/\d+` mapped to
NETBLOCK_OWNER.  `\d` is embedded as the ASCII digits (the inputs exercised
here are ASCII, where the two agree). -/
def reNetblockOwner : Rx :=
  .seq reIpAddress (.seq (rxLit '/') (Rx.plus rxDigit))

/-- Pattern `.*@.*` mapped to EMAILADDR. -/
def reEmailAddr : Rx :=
  .seq (.star rxAny) (.seq (rxLit '@') (.star rxAny))

/-- Pattern `\+[0-9]+` mapped to PHONE_NUMBER. -/
def rePhoneNumber : Rx := .seq (rxLit '+') (Rx.plus rxDigit)

/-- Pattern `\".+\s+.+\"` mapped to HUMAN_NAME. -/
def reHumanName : Rx :=
  .seq (rxLit '"')
    (.seq (Rx.plus rxAny) (.seq (Rx.plus rxWs) (.seq (Rx.plus rxAny) (rxLit '"'))))

/-- Pattern `\".+\"` mapped to USERNAME. -/
def reUserName : Rx := .seq (rxLit '"') (.seq (Rx.plus rxAny) (rxLit '"'))

/-- Pattern `[0-9]+` mapped to BGP_AS_OWNER. -/
def reBgpAsOwner : Rx := Rx.plus rxDigit

/-- Pattern `[0-9a-f:]+` with IGNORECASE mapped to IPV6_ADDRESS. -/
def reIpv6Address : Rx :=
  Rx.plus (.cls (fun c =>
    c.isDigit || (decide ('a' ≤ c) && decide (c ≤ 'f'))
      || (decide ('A' ≤ c) && decide (c ≤ 'F')) || c == ':'))

/-- Character class `[a-z0-9]` under IGNORECASE: ASCII letters and digits. -/
def rxAlnum : Rx := .cls Char.isAlphanum

/-- Character class `[a-z0-9\-]` under IGNORECASE. -/
def rxAlnumDash : Rx := .cls (fun c => c.isAlphanum || c == '-')

/-- One DNS label: `[a-z0-9]|[a-z0-9][a-z0-9\-]*[a-z0-9]` under IGNORECASE. -/
def rxLabel : Rx :=
  .alt rxAlnum (.seq rxAlnum (.seq (.star rxAlnumDash) rxAlnum))

/-- Pattern `(([a-z0-9]|[a-z0-9][a-z0-9\-]*[a-z0-9])\.)+([a-z0-9]|[a-z0-9][a-z0-9\-]*[a-z0-9])`
with IGNORECASE mapped to INTERNET_NAME. -/
def reInternetName : Rx :=
  .seq (Rx.plus (.seq rxLabel (rxLit '.'))) rxLabel

/-- Character class `[a-km-zA-HJ-NP-Z1-9]` (base58 alphabet). -/
def rxBase58 : Rx :=
  .cls (fun c =>
    (decide ('a' ≤ c) && decide (c ≤ 'z') && c != 'l')
      || (decide ('A' ≤ c) && decide (c ≤ 'Z') && c != 'I' && c != 'O')
      || (decide ('1' ≤ c) && decide (c ≤ '9')))

/-- Pattern `([13][a-km-zA-HJ-NP-Z1-9]{25,34})` mapped to BITCOIN_ADDRESS. -/
def reBitcoinAddress : Rx :=
  .seq (.cls (fun c => c == '1' || c == '3'))
    (.seq (Rx.repN rxBase58 25) (Rx.repUpTo rxBase58 9))

/-- The ordered `regexToType` table from `SpiderFoot.targetType` in
`sflib.py` (the comment there notes that the regex order is important). -/
def regexToType : List (Rx × String) :=
  [ (reIpAddress, "IP_ADDRESS")
  , (reNetblockOwner, "NETBLOCK_OWNER")
  , (reEmailAddr, "EMAILADDR")
  , (rePhoneNumber, "PHONE_NUMBER")
  , (reHumanName, "HUMAN_NAME")
  , (reUserName, "USERNAME")
  , (reBgpAsOwner, "BGP_AS_OWNER")
  , (reIpv6Address, "IPV6_ADDRESS")
  , (reInternetName, "INTERNET_NAME")
  , (reBitcoinAddress, "BITCOIN_ADDRESS") ]

/-- `SpiderFoot.targetType` from `sflib.py`: an empty (falsy) target yields
`None`; otherwise the first matching rule in `regexToType` yields its type
string, and `None` is returned when no rule matches. -/
def targetType (target : String) : Option String :=
  if target = "" then none
  else
    match regexToType.find? (fun p => p.1.matchStr target) with
    | some p => some p.2
    | none => none

example : targetType "192.168.1.5" = some "IP_ADDRESS" := by decide
example : targetType "example.com" = some "INTERNET_NAME" := by decide
example : targetType "10.0.0.0/8" = some "NETBLOCK_OWNER" := by decide
example : targetType "!!!" = none := by decide

/-! ## `SpiderFoot.modulesProducing` from `sflib.py` -/

/-- The body of the per-module loop in `modulesProducing`: a module whose
`provides` list is falsy is skipped; with `"*"` among the requested events
the module name is appended once, and it is appended again for every type in
its `provides` list that occurs among the requested events. -/
def mpStep (events : List String) (acc : List String)
    (m : String × List String) : List String :=
  if m.2.isEmpty then acc
  else
    let acc1 := if "*" ∈ events then acc ++ [m.1] else acc
    acc1 ++ (m.2.filter (fun t => t ∈ events)).map (fun _ => m.1)

/-- `SpiderFoot.modulesProducing(events)`: `self.opts.get('__modules__')` is
embedded as an optional association list from module name to its `provides`
list (a missing `provides` key is the empty list, which Python treats the
same as an absent one).  The final Python `list(set(modlist))` is embedded as
`List.dedup`; the iteration order of a Python `set` is unspecified, and no
claim about this function depends on the order of the returned list. -/
def modulesProducing (loadedModules : Option (List (String × List String)))
    (events : List String) : List String :=
  if events.isEmpty then []
  else
    match loadedModules with
    | none => []
    | some mods =>
      if mods.isEmpty then []
      else (mods.foldl (mpStep events) []).dedup

/-! ## Event lineage (claim C1)

Modelled from the spec: the `SpiderFootEvent` class of the `spiderfoot`
package is not under `src/` (only its unit tests and the module code that
constructs events are), so the event record is modelled from the spec's
words: an event carries `type`, `data`, `generatedBy` and an owning
`sourceEvent` reference that is none exactly for the synthetic ROOT event;
events are immutable after construction, so the parent reference of an event
can only point to an event constructed strictly earlier, which the inductive
type below captures. -/
inductive SpiderFootEvent where
  | root (data : String) : SpiderFootEvent
  | child (eventType data generatedBy : String)
      (sourceEvent : SpiderFootEvent) : SpiderFootEvent
deriving DecidableEq, Repr

/-- The `type` attribute: the synthetic root event carries the reserved type
ROOT. -/
def SpiderFootEvent.eventType : SpiderFootEvent → String
  | .root _ => "ROOT"
  | .child t _ _ _ => t

/-- Modelled from the spec: the construction-time validation of
`SpiderFootEvent`.  Every event except the root has a source event, and the
type ROOT is reserved for the synthetic event wrapping the scan target, so a
module-created (child) event never carries type ROOT, and its source is
itself well formed. -/
def SpiderFootEvent.wellFormed : SpiderFootEvent → Bool
  | .root _ => true
  | .child t _ _ s => (t != "ROOT") && s.wellFormed

/-- Number of `sourceEvent` links from an event down to its root. -/
def SpiderFootEvent.depth : SpiderFootEvent → Nat
  | .root _ => 0
  | .child _ _ _ s => s.depth + 1

/-- The lineage chain of an event: the event itself followed by the chain of
its `sourceEvent` references. -/
def SpiderFootEvent.chain : SpiderFootEvent → List SpiderFootEvent
  | .root d => [.root d]
  | .child t d g s => .child t d g s :: s.chain

/-- The root event reached by following `sourceEvent` links. -/
def SpiderFootEvent.rootOf : SpiderFootEvent → SpiderFootEvent
  | .root d => .root d
  | .child _ _ _ s => s.rootOf

/-! ## Module `sfp_projectdiscovery`

State, options and the `setup`, `query`, `handleEvent` operations of
`modules/sfp_projectdiscovery.py`.  Emissions are collected in a list, and
the number of network calls the module makes (`fetchUrl` and `resolveHost`)
is counted, since external network traffic is the other kind of externally
visible work a call can perform. -/

/-- Options of `sfp_projectdiscovery` (`api_key` and `verify`). -/
structure PDOpts where
  api_key : String
  verify : Bool
deriving DecidableEq, Repr

/-- Mutable per-instance state of `sfp_projectdiscovery`: the `results` seen
set (a dict used as a set of data strings) and the sticky `errorState`
flag. -/
structure PDState where
  results : List String
  errorState : Bool
  opts : PDOpts
deriving DecidableEq, Repr

/-- Structure of a parsed JSON response from the Chaos API as the module
reads it: `result.get("subdomains")` when it is a list, plus `str(result)`
used for the RAW_RIR_DATA payload. -/
structure PDInfo where
  subdomains : Option (List String)
  repr : String

/-- External collaborators of `sfp_projectdiscovery`: the fetched body
(`res["content"]`), the JSON parser outcome (`none` is a
`json.JSONDecodeError`), DNS resolution, and the successive answers of
`checkForStop` indexed by checkpoint number within the call. -/
structure PDOracle where
  content : Option String
  parsed : String → Option PDInfo
  resolveHost : String → Bool
  stop : Nat → Bool

/-- The module name, `self.__name__`. -/
def pdName : String := "sfp_projectdiscovery"

/-- Result of a module call: the state afterwards, the emitted events in
order, and how many network calls were made. -/
structure ModOut (σ : Type) where
  state : σ
  emissions : List Emit
  netCalls : Nat
deriving Repr

/-- `sfp_projectdiscovery.setup`: stores the context, replaces `results`
with fresh temp storage and merges the caller's option overrides.  The
`errorState` flag is not touched.  The dynamic option merge is embedded as a
function applied to the previous options. -/
def pd_setup (st : PDState) (userOpts : PDOpts → PDOpts) : PDState :=
  { st with results := [], opts := userOpts st.opts }

/-- `sfp_projectdiscovery.query`: one `fetchUrl` call; a missing body or a
JSON decode error yields `None`. -/
def pd_query (o : PDOracle) : Option PDInfo × Nat :=
  match o.content with
  | none => (none, 1)
  | some c => (o.parsed c, 1)

/-- The per-subdomain loop of `sfp_projectdiscovery.handleEvent`: each
iteration first polls `checkForStop` (checkpoint index `k`) and returns on a
stop; duplicate subdomains within the call are skipped via `resultsSet`;
otherwise the joined host name is resolved when the `verify` option is set
and one INTERNET_NAME or INTERNET_NAME_UNRESOLVED event is emitted. -/
def pd_loop (o : PDOracle) (dat : String) (verify : Bool) :
    List String → List String → Nat → List Emit × Nat
  | [], _, _ => ([], 0)
  | sub :: rest, seen, k =>
    if o.stop k then ([], 0)
    else if sub ∈ seen then pd_loop o dat verify rest seen (k + 1)
    else
      let complete := sub ++ "." ++ dat
      if verify && !(o.resolveHost complete) then
        let (es, n) := pd_loop o dat verify rest (sub :: seen) (k + 1)
        (⟨"INTERNET_NAME_UNRESOLVED", complete, pdName⟩ :: es, n + 1)
      else
        let (es, n) := pd_loop o dat verify rest (sub :: seen) (k + 1)
        (⟨"INTERNET_NAME", complete, pdName⟩ :: es,
          n + (if verify then 1 else 0))

/-- `sfp_projectdiscovery.handleEvent`: sticky `errorState` short-circuit; a
missing API key sets `errorState`; the `results` dedup check precedes any
network call or emission; only DOMAIN_NAME events are processed; a RAW_RIR_DATA
event for the whole response precedes the per-subdomain loop. -/
def pd_handleEvent (st : PDState) (ev : SFEvent) (o : PDOracle) :
    ModOut PDState :=
  if st.errorState then ⟨st, [], 0⟩
  else if st.opts.api_key = "" then ⟨{ st with errorState := true }, [], 0⟩
  else if ev.data ∈ st.results then ⟨st, [], 0⟩
  else
    let st' := { st with results := ev.data :: st.results }
    if ev.eventType ≠ "DOMAIN_NAME" then ⟨st', [], 0⟩
    else
      match pd_query o with
      | (none, n) => ⟨st', [], n⟩
      | (some info, n) =>
        match info.subdomains with
        | none => ⟨st', [], n⟩
        | some subs =>
          let (es, n2) := pd_loop o ev.data st.opts.verify subs [] 0
          ⟨st', ⟨"RAW_RIR_DATA", info.repr, pdName⟩ :: es, n + n2⟩

/-! ## Module `sfp_bitcoin`

State and `handleEvent` of `modules/sfp_bitcoin.py`.  The helper
`sf.hashstring` (SHA-256 of the event data) and the pure helpers
`re.findall` on the bitcoin pattern and `check_bc` (base58 decode plus a
double-SHA-256 checksum) are taken as oracle functions: the claims touched
here hold for all of their values, and all the module asks of them is
determinism. -/

/-- Mutable state of `sfp_bitcoin`: the `results` seen set keyed by the hash
of the event data. -/
structure BCState where
  results : List String
deriving DecidableEq, Repr

/-- Oracles of `sfp_bitcoin`: `sf.hashstring`, the regex scan of the data
and the `check_bc` checksum test. -/
structure BCOracle where
  hashstring : String → String
  findMatches : String → List String
  check : String → Bool

/-- The module name, `self.__name__`. -/
def bcName : String := "sfp_bitcoin"

/-- `sfp_bitcoin.handleEvent`: the seen-set check on `hashstring(data)`
precedes all work; every regex match passing `check_bc` is emitted as a
BITCOIN_ADDRESS event.  The module performs no network calls. -/
def bc_handleEvent (st : BCState) (ev : SFEvent) (o : BCOracle) :
    ModOut BCState :=
  let key := o.hashstring ev.data
  if key ∈ st.results then ⟨st, [], 0⟩
  else
    ⟨⟨key :: st.results⟩,
      (o.findMatches ev.data).filterMap (fun m =>
        if o.check m then some ⟨"BITCOIN_ADDRESS", m, bcName⟩ else none),
      0⟩

/-! ## Python string helpers

Character-list implementations of the Python string operations the modules
use (`split` on a one-character separator, `lower`, `strip`, `startswith`,
`int(...)`), written structurally so that every concrete evaluation reduces.
`int(...)` is embedded for an optional sign followed by decimal digits,
which covers every port string the modules handle. -/

/-- Python `s.split(sep)` for a one-character separator, on the character
list. -/
def splitOnChar (sep : Char) : List Char → List (List Char)
  | [] => [[]]
  | c :: cs =>
    match splitOnChar sep cs with
    | [] => [[]]
    | g :: gs => if c == sep then [] :: g :: gs else (c :: g) :: gs

/-- Python `s.split(sep)` for a one-character separator. -/
def pySplit (s : String) (sep : Char) : List String :=
  (splitOnChar sep s.data).map (fun l => ⟨l⟩)

/-- Python `s.lower()` (over the ASCII letters the modules compare). -/
def pyLower (s : String) : String := ⟨s.data.map Char.toLower⟩

/-- Python `s.strip()`: drop leading and trailing whitespace. -/
def pyStrip (s : String) : String :=
  ⟨((s.data.dropWhile Char.isWhitespace).reverse.dropWhile
      Char.isWhitespace).reverse⟩

/-- Python `s.startswith(pre)`. -/
def pyStartsWith (s pre : String) : Bool := pre.data.isPrefixOf s.data

/-- Decimal digits to a number; `none` when empty or a non-digit occurs. -/
def digitsToNatAux : List Char → Nat → Option Nat
  | [], acc => some acc
  | c :: cs, acc =>
    if c.isDigit then digitsToNatAux cs (acc * 10 + (c.toNat - 48))
    else none

/-- See `digitsToNatAux`: the whole non-empty list must be digits. -/
def digitsToNat : List Char → Option Nat
  | [] => none
  | l => digitsToNatAux l 0

/-- Python `int(s)` restricted to an optional sign and decimal digits. -/
def pyToInt (s : String) : Option Int :=
  match s.data with
  | '-' :: rest => (digitsToNat rest).map (fun n => -(n : Int))
  | '+' :: rest => (digitsToNat rest).map (fun n => (n : Int))
  | l => (digitsToNat l).map (fun n => (n : Int))


/-! ## Module `sfp_cinsscore`

State, options and the `setup`, `query`, `handleEvent` operations of
`modules/sfp_cinsscore.py`. -/

/-- Options of `sfp_cinsscore` read by `handleEvent` (the cache period only
parameterises the external cache lookup). -/
structure CIOpts where
  checkaffiliates : Bool
  checknetblocks : Bool
  checksubnets : Bool
deriving DecidableEq, Repr

/-- Mutable state of `sfp_cinsscore`: the `results` seen set and the sticky
`errorState` flag. -/
structure CIState where
  results : List String
  errorState : Bool
  opts : CIOpts
deriving DecidableEq, Repr

/-- External collaborators of `sfp_cinsscore.query`: the disk cache lookup,
the HTTP fetch of the CINS army list (status code and body), and the
`IPAddress(ip) in IPNetwork(qry)` test of the `netaddr` library, whose
`none` answer stands for the parse exception the module catches. -/
structure CIOracle where
  cache : Option String
  fetchCode : String
  fetchContent : Option String
  inNet : String → String → Option Bool

/-- The module name, `self.__name__`. -/
def ciName : String := "sfp_cinsscore"

/-- The constant list URL that `query` returns on a hit. -/
def ciUrl : String := "http://cinsscore.com/list/ci-badguys.txt"

/-- `sfp_cinsscore.setup`: fresh `results`, `errorState` reset to `False`,
option overrides merged. -/
def ci_setup (st : CIState) (userOpts : CIOpts → CIOpts) : CIState :=
  { st with results := [], errorState := false, opts := userOpts st.opts }

/-- The line scan of `sfp_cinsscore.query`: each line is stripped and
lowercased; in netblock mode a parse exception continues with the next line
and a member hit returns the list URL; in ip mode a case-insensitive string
match returns the list URL. -/
def ci_lines (o : CIOracle) (qry tt : String) : List String → Option String
  | [] => none
  | line :: rest =>
    let ip := pyLower (pyStrip line)
    if tt = "netblock" then
      match o.inNet ip qry with
      | some true => some ciUrl
      | _ => ci_lines o qry tt rest
    else if tt = "ip" then
      if pyLower qry = ip then some ciUrl else ci_lines o qry tt rest
    else ci_lines o qry tt rest

/-- `sfp_cinsscore.query`: on a cache hit the cached body is scanned with no
network call; otherwise the list is fetched, and a non-200 status or a
missing body logs an error, sets the sticky `errorState` and returns `None`
-- note that this transient fetch failure does set `errorState`. -/
def ci_query (st : CIState) (o : CIOracle) (qry tt : String) :
    CIState × Option String × Nat :=
  match o.cache with
  | some content => (st, ci_lines o qry tt (pySplit content '\n'), 0)
  | none =>
    if o.fetchCode ≠ "200" then ({ st with errorState := true }, none, 1)
    else
      match o.fetchContent with
      | none => ({ st with errorState := true }, none, 1)
      | some content => (st, ci_lines o qry tt (pySplit content '\n'), 1)

/-- The event-type selection chain of `sfp_cinsscore.handleEvent`: the
watched event type picks the query mode and the produced event type, gated
by the affiliate/netblock/subnet options; an unmatched or disabled type
yields nothing (the `return None` branches). -/
def ci_select (opts : CIOpts) (eventName : String) : Option (String × String) :=
  if eventName = "IP_ADDRESS" then some ("ip", "MALICIOUS_IPADDR")
  else if eventName = "AFFILIATE_IPADDR" then
    if opts.checkaffiliates then some ("ip", "MALICIOUS_AFFILIATE_IPADDR")
    else none
  else if eventName = "NETBLOCK_OWNER" then
    if opts.checknetblocks then some ("netblock", "MALICIOUS_NETBLOCK")
    else none
  else if eventName = "NETBLOCK_MEMBER" then
    if opts.checksubnets then some ("netblock", "MALICIOUS_SUBNET")
    else none
  else none

/-- The tail of `sfp_cinsscore.handleEvent` after the event type has been
classified: nothing to do, or one `query` call whose hit is emitted as one
malicious-entity event. -/
def ci_dispatch (st : CIState) (o : CIOracle) (d : String) :
    Option (String × String) → ModOut CIState
  | none => ⟨st, [], 0⟩
  | some (tt, evtType) =>
    match ci_query st o d tt with
    | (st', url?, n) =>
      match url? with
      | none => ⟨st', [], n⟩
      | some url =>
        ⟨st',
          [⟨evtType,
            "cinsscore.com [" ++ d ++ "]\n<SFURL>" ++ url ++ "</SFURL>",
            ciName⟩], n⟩

/-- `sfp_cinsscore.handleEvent`: the `results` dedup check precedes even the
`errorState` check; then the event data is recorded as seen and the
classified event type is dispatched. -/
def ci_handleEvent (st : CIState) (ev : SFEvent) (o : CIOracle) :
    ModOut CIState :=
  if ev.data ∈ st.results then ⟨st, [], 0⟩
  else if st.errorState then ⟨st, [], 0⟩
  else
    ci_dispatch { st with results := ev.data :: st.results } o ev.data
      (ci_select st.opts ev.eventType)

/-! ## Module `sfp_email`

`modules/sfp_email.py` keeps no per-scan mutable state at all: `setup` only
stores the context and merges options, and `handleEvent` uses a list `myres`
local to the call to dedup within one delivery.  The helpers
`sf.parseEmails` (whose regex guarantees an `@` in every returned string),
`sf.validHost` and the two `getTarget().matches` calls are oracle
functions. -/

/-- Oracles of `sfp_email`. -/
structure EMOracle where
  parseEmails : String → List String
  validHost : String → Bool
  matchesHost : String → Bool
  matchesEmail : String → Bool

/-- The module name, `self.__name__`. -/
def emName : String := "sfp_email"

/-- Python `strip('.')`: remove leading and trailing dots. -/
def stripDots (s : String) : String :=
  ⟨((s.data.dropWhile (fun c => c == '.')).reverse.dropWhile
      (fun c => c == '.')).reverse⟩

/-- The per-address loop of `sfp_email.handleEvent`.  An invalid mail domain
makes the whole call return (events already emitted stay emitted); the event
type is refined to AFFILIATE_EMAILADDR or EMAILADDR_GENERIC; addresses
already emitted within this same call are skipped via the call-local
`myres`. -/
def em_loop (o : EMOracle) (genericusers : List String) (evName : String) :
    List String → List String → List Emit
  | [], _ => []
  | e :: rest, myres =>
    let email := pyLower e
    let mailDom := stripDots ((pySplit email '@').getD 1 "")
    if !(o.validHost mailDom) then []
    else
      let t1 := if !(o.matchesHost mailDom) && !(o.matchesEmail email) then
          "AFFILIATE_EMAILADDR" else "EMAILADDR"
      let t2 := if pyStartsWith evName "AFFILIATE_" then "AFFILIATE_EMAILADDR"
        else t1
      let t3 := if !(pyStartsWith t2 "AFFILIATE_")
          && (pySplit email '@').getD 0 "" ∈ genericusers then
          "EMAILADDR_GENERIC" else t2
      let mail := stripDots email
      if mail ∈ myres then em_loop o genericusers evName rest myres
      else ⟨t3, mail, emName⟩ :: em_loop o genericusers evName rest (mail :: myres)

/-- `sfp_email.handleEvent`: extract addresses from the event data and run
the emission loop.  There is no `results` seen set and no `errorState`, so
the emissions depend only on the delivered event, the `_genericusers`
option and the oracle answers -- a second delivery of the same data repeats
exactly the same externally visible work. -/
def em_handleEvent (ev : SFEvent) (genericusers : String) (o : EMOracle) :
    List Emit :=
  em_loop o (pySplit genericusers ',') ev.eventType (o.parseEmails ev.data) []

/-! ## Module `sfp_portscan_tcp`

State, options and the `setup`, `sendEvent`, `handleEvent` operations of
`modules/sfp_portscan_tcp.py`.  The socket probe of one port
(`tryPort` via worker threads) is an oracle; `tryPortWrapper` joins all its
worker threads before returning, and its `portResults` dict is embedded in
the spawn order of the batch -- the real insertion order depends on thread
completion timing, and this deterministic idealisation is the most
favourable reading for any determinism claim about the module. -/

/-- Options of `sfp_portscan_tcp`. -/
structure PSOpts where
  ports : List String
  maxthreads : Nat
  randomize : Bool
  netblockscan : Bool
  netblockscanmax : Nat
deriving DecidableEq, Repr

/-- Mutable state of `sfp_portscan_tcp`: the `results` seen set of scanned
IPs, the parsed `portlist` (a class-level list that `setup` appends to and
never clears) and the sticky `errorState` flag. -/
structure PSState where
  results : List String
  portlist : List Int
  errorState : Bool
  opts : PSOpts
deriving DecidableEq, Repr

/-- Outcome of probing one port, as `tryPort` records it in `portResults`:
the connect failed (`False`), the connect succeeded but `recv` raised (the
entry stays `True`), or `recv` returned a banner (decoded; possibly
empty). -/
inductive PortRes where
  | closed : PortRes
  | openNoBanner : PortRes
  | banner (b : String) : PortRes
deriving DecidableEq, Repr

/-- External collaborators of `sfp_portscan_tcp.setup`: the SystemRandom
shuffle of the port list and the `optValueToData` lookup used when the port
option names a URL or file. -/
structure PSSetupOracle where
  shuffle : List Int → List Int
  optData : List String

/-- External collaborators of `sfp_portscan_tcp.handleEvent`: the successive
`checkForStop` answers, the expansion of a netblock into its prefix length
and addresses (`none` stands for the caught `IPNetwork` parse exception) and
the socket probe of one ip and port. -/
structure PSOracle where
  stop : Nat → Bool
  expandNet : String → Option (Nat × List String)
  scan : String → Int → PortRes

/-- The module name, `self.__name__`. -/
def psName : String := "sfp_portscan_tcp"

/-- `sfp_portscan_tcp.setup`: fresh `results`, option overrides merged, the
port strings (possibly an external list when the first entry is a URL or an
`@file`) deduplicated and parsed as integers, appended to the existing
class-level `portlist`, and the whole list shuffled when `randomize` is set.
`errorState` is not touched.  Python `set(...)` iteration is embedded as
`dedup` and `int(...)` as `pyToInt` (unparsable entries are skipped
with a debug log). -/
def ps_setup (o : PSSetupOracle) (st : PSState) (userOpts : PSOpts → PSOpts) :
    PSState :=
  let opts := userOpts st.opts
  let src := opts.ports.headD ""
  let portStrs :=
    if pyStartsWith src "http://" || pyStartsWith src "https://"
        || pyStartsWith src "@" then o.optData
    else opts.ports
  let portlist := st.portlist ++ portStrs.dedup.filterMap pyToInt;
  { st with
    results := [], opts := opts,
    portlist := if opts.randomize then o.shuffle portlist else portlist }

/-- The events `sendEvent` produces for one probed peer string: nothing for
a closed port or an empty banner (both falsy in `if resArray[cp]`), a
TCP_PORT_OPEN event for an open port, followed by a TCP_PORT_OPEN_BANNER
event when a non-empty banner was read. -/
def ps_emitsFor (cp : String) : PortRes → List Emit
  | .closed => []
  | .openNoBanner => [⟨"TCP_PORT_OPEN", cp, psName⟩]
  | .banner b =>
    if b = "" then []
    else [⟨"TCP_PORT_OPEN", cp, psName⟩, ⟨"TCP_PORT_OPEN_BANNER", b, psName⟩]

/-- `sendEvent` applied to the `tryPortWrapper` results of one batch of
ports for one IP (dict entries in spawn order, see the section comment). -/
def ps_sendEvent (o : PSOracle) (ip : String) (arr : List Int) : List Emit :=
  arr.flatMap (fun p => ps_emitsFor (ip ++ ":" ++ toString p) (o.scan ip p))

/-- The per-port loop of `sfp_portscan_tcp.handleEvent` for one IP: each
iteration first polls `checkForStop` (checkpoint index `k`) and on a stop
returns with the events emitted so far, reporting the stop; otherwise ports
accumulate into a batch of at most `maxthreads`, and a full batch is probed
and its events sent before the batch restarts with the current port.
Returns the emitted events, whether a stop was observed, the pending batch
and the next checkpoint index. -/
def ps_portLoop (o : PSOracle) (ip : String) (maxth : Nat) :
    List Int → Nat → List Int → Nat → List Emit × Bool × List Int × Nat
  | [], _, arr, k => ([], false, arr, k)
  | p :: rest, i, arr, k =>
    if o.stop k then ([], true, arr, k)
    else if i < maxth then ps_portLoop o ip maxth rest (i + 1) (arr ++ [p]) (k + 1)
    else
      let es := ps_sendEvent o ip arr
      let (es2, stopped, arr', k') := ps_portLoop o ip maxth rest 1 [p] (k + 1)
      (es ++ es2, stopped, arr', k')

/-- One IP of the scan: the port loop followed, when no stop was observed,
by the trailing `sendEvent(tryPortWrapper(ipAddr, portArr))` that probes
whatever remains in the pending batch. -/
def ps_scanIp (o : PSOracle) (maxth : Nat) (ip : String) (ports : List Int)
    (k : Nat) : List Emit × Bool × Nat :=
  match ps_portLoop o ip maxth ports 0 [] k with
  | (es, true, _, k') => (es, true, k')
  | (es, false, arr, k') => (es ++ ps_sendEvent o ip arr, false, k')

/-- The per-IP loop of `sfp_portscan_tcp.handleEvent`: an IP already in the
`results` seen set makes the whole call return (the source code uses
`return None`, not `continue`); otherwise the IP is recorded and its ports
scanned, and a stop observed inside the port loop ends the call. -/
def ps_ipLoop (o : PSOracle) (maxth : Nat) (portlist : List Int) :
    List String → List String → Nat → List String × List Emit
  | [], results, _ => (results, [])
  | ip :: rest, results, k =>
    if ip ∈ results then (results, [])
    else
      let results := ip :: results
      match ps_scanIp o maxth ip portlist k with
      | (es, true, _) => (results, es)
      | (es, false, k') =>
        let (res', es2) := ps_ipLoop o maxth portlist rest results k'
        (res', es ++ es2)

/-- The `scanIps` computation of `sfp_portscan_tcp.handleEvent`: a
NETBLOCK_OWNER event with netblock scanning enabled is expanded into its
addresses, skipping broadcast/network style addresses (last octet 255 or 0,
or any octet 255); a parse exception or a block wider than
`netblockscanmax` makes the call return nothing; any other event
contributes its data as the single IP. -/
def ps_scanTargets (opts : PSOpts) (ev : SFEvent) (o : PSOracle) :
    Option (List String) :=
  if ev.eventType = "NETBLOCK_OWNER" && opts.netblockscan then
    match o.expandNet ev.data with
    | none => none
    | some (plen, ips) =>
      if plen < opts.netblockscanmax then none
      else some (ips.filter (fun ip =>
        let octs := pySplit ip '.'
        !(decide (octs.getD 3 "" ∈ ["255", "0"])) && !(octs.contains "255")))
  else some [ev.data]

/-- `sfp_portscan_tcp.handleEvent`: sticky `errorState` short-circuit; an
empty parsed port list sets `errorState` and returns; otherwise the scan
targets are computed and the per-IP loop runs. -/
def ps_handleEvent (st : PSState) (ev : SFEvent) (o : PSOracle) :
    PSState × List Emit :=
  if st.errorState then (st, [])
  else if st.portlist.isEmpty then ({ st with errorState := true }, [])
  else
    match ps_scanTargets st.opts ev o with
    | none => (st, [])
    | some ips =>
      let (res', es) := ps_ipLoop o st.opts.maxthreads st.portlist ips st.results 0
      ({ st with results := res' }, es)

/-! ## Concrete fixtures

Closed example states, events and oracles used to evaluate the embedded
module operations at concrete inputs. -/

/-- A fresh `sfp_projectdiscovery` state with an API key configured. -/
def pdFix : PDState := ⟨[], false, ⟨"k", true⟩⟩

/-- A `sfp_projectdiscovery` oracle whose fetch returns an unparsable body. -/
def pdOracleFix : PDOracle := ⟨some "x", fun _ => none, fun _ => true, fun _ => false⟩

/-- A fresh `sfp_bitcoin` state. -/
def bcFix : BCState := ⟨[]⟩

/-- A `sfp_bitcoin` oracle with an injective stand-in for `sf.hashstring`. -/
def bcOracleFix : BCOracle := ⟨fun s => String.append s "#", fun _ => [], fun _ => false⟩

/-- A fresh `sfp_cinsscore` state with all checks enabled. -/
def ciFix : CIState := ⟨[], false, ⟨true, true, true⟩⟩

/-- A `sfp_cinsscore` oracle with a cached list body that matches nothing. -/
def ciOracleFix : CIOracle := ⟨some "9.9.9.9", "200", none, fun _ _ => some false⟩

/-- A `sfp_projectdiscovery` oracle whose fetch returned no body (a
transient network failure). -/
def pdOracleFail : PDOracle := ⟨none, fun _ => none, fun _ => true, fun _ => false⟩

/-- A `sfp_cinsscore` oracle with a cold cache and a failed fetch. -/
def ciOracleFail : CIOracle := ⟨none, "timed out", none, fun _ _ => some false⟩

/-- A `sfp_portscan_tcp` state left over from a previous scan: a seen IP,
a parsed port list and a set `errorState`. -/
def psDirty : PSState := ⟨["9.9.9.9"], [80], true, ⟨["80"], 10, false, true, 24⟩⟩

/-- A `sfp_portscan_tcp` setup oracle with an identity shuffle. -/
def psSetupOracleFix : PSSetupOracle := ⟨fun l => l, []⟩

/-- A three-level event lineage: ROOT, then a DOMAIN_NAME found from it,
then an IP_ADDRESS found from that. -/
def evTree : SpiderFootEvent :=
  .child "IP_ADDRESS" "93.184.216.34" "modA"
    (.child "DOMAIN_NAME" "example.com" "modB" (.root "example.com"))

/-- A `sfp_projectdiscovery` oracle whose `checkForStop` answers become true
at the second checkpoint. -/
def pdOracleStop : PDOracle :=
  ⟨some "x", fun _ => none, fun _ => true, fun n => n == 1⟩

/-- A `sfp_portscan_tcp` oracle whose `checkForStop` answers become true at
the second checkpoint. -/
def psOracleStop : PSOracle :=
  ⟨fun n => n == 1, fun _ => none, fun _ _ => PortRes.openNoBanner⟩

/-- A fresh `sfp_portscan_tcp` state whose options name two ports and ask
for randomization. -/
def psFresh : PSState := ⟨[], [], false, ⟨["22", "80"], 10, true, true, 24⟩⟩

/-- A setup oracle whose SystemRandom shuffle reverses the list: another
possible outcome of the same random draw as the identity shuffle. -/
def psShufB : PSSetupOracle := ⟨List.reverse, []⟩

/-- A `sfp_portscan_tcp` run oracle: the scan is never cancelled and every
probed port is open with no banner. -/
def psRunOracle : PSOracle :=
  ⟨fun _ => false, fun _ => none, fun _ _ => PortRes.openNoBanner⟩

/-- An IP_ADDRESS event to scan. -/
def evIP : SFEvent := ⟨"IP_ADDRESS", "1.2.3.4", "m1"⟩

/-- A DOMAIN_NAME event and a second event with equal data from another
module and with another type. -/
def evA : SFEvent := ⟨"RAW_RIR_DATA", "example.com", "m1"⟩

/-- See `evA`. -/
def evB : SFEvent := ⟨"DOMAIN_NAME", "example.com", "m2"⟩

/-- A NETBLOCK_OWNER event, and `evD` a second one with equal data. -/
def evC : SFEvent := ⟨"NETBLOCK_OWNER", "1.2.3.0/24", "m1"⟩

/-- See `evC`. -/
def evD : SFEvent := ⟨"NETBLOCK_OWNER", "1.2.3.0/24", "m2"⟩

/-- A web-content event carrying an e-mail address. -/
def evW : SFEvent := ⟨"TARGET_WEB_CONTENT", "same data", "m1"⟩

/-- A second web-content event with the same data as `evW`. -/
def evW2 : SFEvent := ⟨"TARGET_WEB_CONTENT", "same data", "m2"⟩

/-! ## Supporting lemmas -/

theorem SpiderFootEvent.chain_ne_nil (e : SpiderFootEvent) : e.chain ≠ [] := by
  cases e <;> simp [SpiderFootEvent.chain]

theorem SpiderFootEvent.depth_le_of_mem_chain {e x : SpiderFootEvent}
    (h : x ∈ e.chain) : x.depth ≤ e.depth := by
  induction e with
  | root d =>
    simp [SpiderFootEvent.chain] at h
    subst h; exact Nat.le_refl _
  | child t d g s ih =>
    rcases List.mem_cons.mp h with h1 | h2
    · subst h1; exact Nat.le_refl _
    · exact Nat.le_trans (ih h2) (Nat.le_succ _)

theorem SpiderFootEvent.chain_pairwise_depth (e : SpiderFootEvent) :
    e.chain.Pairwise (fun a b => b.depth < a.depth) := by
  induction e with
  | root d => simp [SpiderFootEvent.chain]
  | child t d g s ih =>
    refine List.pairwise_cons.mpr ⟨?_, ih⟩
    intro x hx
    exact Nat.lt_succ_of_le (SpiderFootEvent.depth_le_of_mem_chain hx)

theorem SpiderFootEvent.chain_nodup (e : SpiderFootEvent) : e.chain.Nodup :=
  (e.chain_pairwise_depth).imp (fun h => by
    intro he; subst he; exact absurd h (Nat.lt_irrefl _))

theorem SpiderFootEvent.chain_getLast? (e : SpiderFootEvent) :
    e.chain.getLast? = some e.rootOf := by
  induction e with
  | root d => simp [SpiderFootEvent.chain, SpiderFootEvent.rootOf]
  | child t d g s ih =>
    obtain ⟨hd, tl, hcs⟩ : ∃ hd tl, s.chain = hd :: tl := by
      cases hs : s.chain with
      | nil => exact absurd hs (SpiderFootEvent.chain_ne_nil s)
      | cons hd tl => exact ⟨hd, tl, rfl⟩
    rw [SpiderFootEvent.chain, SpiderFootEvent.rootOf, hcs,
      List.getLast?_cons_cons, ← hcs]
    exact ih

theorem SpiderFootEvent.rootOf_eventType (e : SpiderFootEvent) :
    e.rootOf.eventType = "ROOT" := by
  induction e with
  | root d => rfl
  | child t d g s ih => exact ih

theorem SpiderFootEvent.chain_countP_root (e : SpiderFootEvent)
    (h : e.wellFormed = true) :
    e.chain.countP (fun x => x.eventType == "ROOT") = 1 := by
  induction e with
  | root d => simp [SpiderFootEvent.chain, List.countP_cons,
      SpiderFootEvent.eventType]
  | child t d g s ih =>
    rw [SpiderFootEvent.wellFormed, Bool.and_eq_true] at h
    rw [SpiderFootEvent.chain, List.countP_cons]
    have ht : (SpiderFootEvent.child t d g s).eventType ≠ "ROOT" := by
      simpa [SpiderFootEvent.eventType] using h.1
    simp [ht, ih h.2]

theorem mem_mpStep_of_mem {events acc : List String}
    {m : String × List String} {a : String} (h : a ∈ acc) :
    a ∈ mpStep events acc m := by
  unfold mpStep
  split
  · exact h
  · refine List.mem_append_left _ ?_
    split
    · exact List.mem_append_left _ h
    · exact h

theorem mem_mpFold_of_mem {events : List String} :
    ∀ (mods : List (String × List String)) (acc : List String) (a : String),
      a ∈ acc → a ∈ mods.foldl (mpStep events) acc
  | [], _, _, h => h
  | _ :: rest, acc, a, h =>
      mem_mpFold_of_mem rest _ a (mem_mpStep_of_mem h)

theorem mem_mpStep_self {events acc : List String} {m : String × List String}
    (hne : m.2 ≠ []) (hstar : "*" ∈ events) : m.1 ∈ mpStep events acc m := by
  unfold mpStep
  rw [if_neg (by simpa [List.isEmpty_iff] using hne), if_pos hstar]
  exact List.mem_append_left _ (List.mem_append_right _ (List.mem_singleton.mpr rfl))

theorem mem_mpFold {events : List String} :
    ∀ (mods : List (String × List String)) (acc : List String)
      (m : String × List String), m ∈ mods → m.2 ≠ [] → "*" ∈ events →
      m.1 ∈ mods.foldl (mpStep events) acc
  | mh :: rest, acc, m, hm, hne, hstar => by
      rcases List.mem_cons.mp hm with h1 | h2
      · subst h1
        exact mem_mpFold_of_mem rest _ _ (mem_mpStep_self hne hstar)
      · exact mem_mpFold rest _ m h2 hne hstar

/-- Claim C7: target type inference on seed values returns IP_ADDRESS for
192.168.1.5, INTERNET_NAME for example.com and NETBLOCK_OWNER for
10.0.0.0/8; in particular the CIDR string falls through the anchored
IP-address rule that precedes the netblock rule. -/
theorem c7_target_type_inference :
    targetType "192.168.1.5" = some "IP_ADDRESS"
      ∧ targetType "example.com" = some "INTERNET_NAME"
      ∧ targetType "10.0.0.0/8" = some "NETBLOCK_OWNER"
      ∧ reIpAddress.matchStr "10.0.0.0/8" = false := by
  refine ⟨by decide, by decide, by decide, by decide⟩

/-- Claim C8, counterexample: on the seed value "!!!", which no rule in the
ordered pattern table matches, `targetType` does not return the string
"unsupported"; it returns `None`. -/
theorem c8_counterexample :
    targetType "!!!" ≠ some "unsupported" ∧ targetType "!!!" = none := by
  decide

/-- Claim C8 (amended): for every non-empty seed value matched by none of
the ordered (regex, type) rules, `targetType` returns `None` (Python `None`,
embedded as `none`), not the string "unsupported". -/
theorem c8_no_match_returns_none (s : String) (hne : s ≠ "")
    (h : ∀ p ∈ regexToType, p.1.matchStr s = false) : targetType s = none := by
  unfold targetType
  rw [if_neg hne]
  have hfind : regexToType.find? (fun p => p.1.matchStr s) = none :=
    List.find?_eq_none.mpr (by intro p hp; simpa using h p hp)
  rw [hfind]

theorem c8_witness :
    ("!!!" : String) ≠ ""
      ∧ (∀ p ∈ regexToType, p.1.matchStr "!!!" = false)
      ∧ targetType "!!!" = none :=
  ⟨by decide, by decide,
    c8_no_match_returns_none "!!!" (by decide) (by decide)⟩

/-- Claim C10: whenever the requested event type list contains "*",
`modulesProducing` returns every loaded module whose `provides` declaration
is non-empty, whether or not that module produces any of the named types,
and the returned list has no duplicate module names. -/
theorem c10_star_producing (mods : List (String × List String))
    (events : List String) (hstar : "*" ∈ events) :
    (∀ m ∈ mods, m.2 ≠ [] → m.1 ∈ modulesProducing (some mods) events)
      ∧ (modulesProducing (some mods) events).Nodup := by
  have hev : events.isEmpty = false := by
    cases events with
    | nil => cases hstar
    | cons a l => rfl
  have hre : modulesProducing (some mods) events
      = if mods.isEmpty then [] else (mods.foldl (mpStep events) []).dedup := by
    simp [modulesProducing, hev]
  rw [hre]
  by_cases hm : mods.isEmpty = true
  · rw [if_pos hm]
    have : mods = [] := List.isEmpty_iff.mp hm
    subst this
    exact ⟨(by intro m hm'; cases hm'), List.nodup_nil⟩
  · rw [if_neg hm]
    refine ⟨?_, List.nodup_dedup _⟩
    intro m hmem hne
    exact List.mem_dedup.mpr (mem_mpFold mods [] m hmem hne hstar)

theorem c10_witness :
    ("*" ∈ (["*"] : List String))
      ∧ ((∀ m ∈ [("alpha", ["X"]), ("beta", (["Y"] : List String))],
            m.2 ≠ [] →
            m.1 ∈ modulesProducing (some [("alpha", ["X"]), ("beta", ["Y"])]) ["*"])
          ∧ (modulesProducing (some [("alpha", ["X"]), ("beta", ["Y"])]) ["*"]).Nodup) :=
  ⟨by decide, c10_star_producing _ _ (by decide)⟩

/-- Claim C3: once a module's sticky `errorState` flag is set, every
subsequent `handleEvent` call returns immediately: the state is unchanged,
nothing is emitted and no network call is made, even for events of watched
types still routed to the module (shown for `sfp_projectdiscovery` and
`sfp_portscan_tcp`, the modules the claim cites). -/
theorem c3_errorstate_noop (st : PDState) (ev : SFEvent) (o : PDOracle)
    (st2 : PSState) (ev2 : SFEvent) (o2 : PSOracle)
    (h : st.errorState = true) (h2 : st2.errorState = true) :
    pd_handleEvent st ev o = ⟨st, [], 0⟩ ∧ ps_handleEvent st2 ev2 o2 = (st2, []) := by
  constructor
  · unfold pd_handleEvent
    rw [if_pos h]
  · unfold ps_handleEvent
    rw [if_pos h2]

theorem c3_witness :
    (PDState.mk ["seen.example.com"] true ⟨"key", true⟩).errorState = true
      ∧ (PSState.mk [] [80] true ⟨["80"], 10, false, true, 24⟩).errorState = true
      ∧ (pd_handleEvent (PDState.mk ["seen.example.com"] true ⟨"key", true⟩)
            ⟨"DOMAIN_NAME", "example.com", "sfp_dnsresolve"⟩
            ⟨none, fun _ => none, fun _ => true, fun _ => false⟩
          = ⟨PDState.mk ["seen.example.com"] true ⟨"key", true⟩, [], 0⟩
        ∧ ps_handleEvent (PSState.mk [] [80] true ⟨["80"], 10, false, true, 24⟩)
            ⟨"IP_ADDRESS", "1.2.3.4", "sfp_dnsresolve"⟩
            ⟨fun _ => false, fun _ => none, fun _ _ => PortRes.closed⟩
          = (PSState.mk [] [80] true ⟨["80"], 10, false, true, 24⟩, [])) :=
  ⟨rfl, rfl, c3_errorstate_noop _ _ _ _ _ _ rfl rfl⟩

theorem pd_noop_of (st : PDState) (ev : SFEvent) (o : PDOracle)
    (h : st.errorState = true ∨ st.opts.api_key = "" ∨ ev.data ∈ st.results) :
    (pd_handleEvent st ev o).emissions = [] ∧ (pd_handleEvent st ev o).netCalls = 0 := by
  unfold pd_handleEvent
  rcases h with h | h | h
  · rw [if_pos h]; exact ⟨rfl, rfl⟩
  · split
    · exact ⟨rfl, rfl⟩
    · exact ⟨rfl, rfl⟩
  · split
    · exact ⟨rfl, rfl⟩
    · split
      · exact ⟨rfl, rfl⟩
      · exact ⟨rfl, rfl⟩

theorem pd_after_mem (st : PDState) (ev : SFEvent) (o : PDOracle) :
    (pd_handleEvent st ev o).state.errorState = true
      ∨ (pd_handleEvent st ev o).state.opts.api_key = ""
      ∨ ev.data ∈ (pd_handleEvent st ev o).state.results := by
  unfold pd_handleEvent
  split
  · exact Or.inl (by assumption)
  · split
    · exact Or.inl rfl
    · split
      · exact Or.inr (Or.inr (by assumption))
      · split
        · exact Or.inr (Or.inr (List.mem_cons_self _ _))
        · split
          · exact Or.inr (Or.inr (List.mem_cons_self _ _))
          · split
            · exact Or.inr (Or.inr (List.mem_cons_self _ _))
            · split
              exact Or.inr (Or.inr (List.mem_cons_self _ _))

theorem bc_noop_of (st : BCState) (ev : SFEvent) (o : BCOracle)
    (h : o.hashstring ev.data ∈ st.results) :
    (bc_handleEvent st ev o).emissions = [] ∧ (bc_handleEvent st ev o).netCalls = 0 := by
  simp [bc_handleEvent, h]

theorem bc_after_mem (st : BCState) (ev : SFEvent) (o : BCOracle) :
    o.hashstring ev.data ∈ (bc_handleEvent st ev o).state.results := by
  by_cases hk : o.hashstring ev.data ∈ st.results
  · simp [bc_handleEvent, hk]
  · simp [bc_handleEvent, hk]

theorem ci_noop_of (st : CIState) (ev : SFEvent) (o : CIOracle)
    (h : ev.data ∈ st.results ∨ st.errorState = true) :
    (ci_handleEvent st ev o).emissions = [] ∧ (ci_handleEvent st ev o).netCalls = 0 := by
  unfold ci_handleEvent
  rcases h with h | h
  · rw [if_pos h]; exact ⟨rfl, rfl⟩
  · split
    · exact ⟨rfl, rfl⟩
    · exact ⟨rfl, rfl⟩

theorem ci_query_results (st : CIState) (o : CIOracle) (qry tt : String) :
    (ci_query st o qry tt).1.results = st.results := by
  unfold ci_query
  split
  · rfl
  · split
    · rfl
    · split <;> rfl

theorem ci_dispatch_results (st : CIState) (o : CIOracle) (d : String)
    (sel : Option (String × String)) :
    (ci_dispatch st o d sel).state.results = st.results := by
  cases sel with
  | none => rfl
  | some p =>
    rcases p with ⟨tt, evtType⟩
    simp only [ci_dispatch]
    rcases hq : ci_query st o d tt with ⟨st2, url?, n⟩
    have h2 := ci_query_results st o d tt
    rw [hq] at h2
    cases url? <;> simpa using h2

theorem ci_after_mem (st : CIState) (ev : SFEvent) (o : CIOracle) :
    ev.data ∈ (ci_handleEvent st ev o).state.results
      ∨ (ci_handleEvent st ev o).state.errorState = true := by
  unfold ci_handleEvent
  split
  · exact Or.inl (by assumption)
  · split
    · exact Or.inr (by assumption)
    · left
      rw [ci_dispatch_results]
      exact List.mem_cons_self _ _



set_option maxRecDepth 8192 in
/-- Claim C2, counterexample: `sfp_email` keeps no per-scan seen set (its
`myres` list is local to each `handleEvent` call), so delivering the same
TARGET_WEB_CONTENT data a second time performs the same externally visible
work again: the call is a pure function of the delivered event and the
oracle answers, and it emits a non-empty list of EMAILADDR events on the
second identical delivery just as on the first -- the later call does not
return before doing work, contradicting the claim for this module. -/
theorem c2_counterexample :
    em_handleEvent ⟨"TARGET_WEB_CONTENT", "contact: bob@example.com", "sfp_spider"⟩
        "abuse,admin"
        ⟨fun _ => ["bob@example.com"], fun _ => true, fun _ => true, fun _ => true⟩
      = [⟨"EMAILADDR", "bob@example.com", "sfp_email"⟩]
    ∧ em_handleEvent ⟨"TARGET_WEB_CONTENT", "contact: bob@example.com", "sfp_spider"⟩
        "abuse,admin"
        ⟨fun _ => ["bob@example.com"], fun _ => true, fun _ => true, fun _ => true⟩
      ≠ [] := by
  refine ⟨by decide, by decide⟩

/-- Claim C2 (amended): for each of the cited modules, which keep a per-scan
seen set -- `sfp_projectdiscovery` (keyed by event data), `sfp_bitcoin`
(keyed by the hash of the event data) and `sfp_cinsscore` (keyed by event
data) -- delivering a second event whose data equals that of an earlier
delivered event causes no externally visible work in the second
`handleEvent` call: it emits nothing and makes no network call, whatever the
two events' types and source modules are.  Modules without such a seen set
(`sfp_email`) repeat their work instead. -/
theorem c2_amended
    (pst : PDState) (pe1 pe2 : SFEvent) (po1 po2 : PDOracle)
    (bst : BCState) (be1 be2 : SFEvent) (bo1 bo2 : BCOracle)
    (cst : CIState) (ce1 ce2 : SFEvent) (co1 co2 : CIOracle)
    (hpd : pe2.data = pe1.data) (hbc : be2.data = be1.data)
    (hbh : bo2.hashstring = bo1.hashstring) (hci : ce2.data = ce1.data) :
    ((pd_handleEvent (pd_handleEvent pst pe1 po1).state pe2 po2).emissions = []
      ∧ (pd_handleEvent (pd_handleEvent pst pe1 po1).state pe2 po2).netCalls = 0)
    ∧ ((bc_handleEvent (bc_handleEvent bst be1 bo1).state be2 bo2).emissions = []
      ∧ (bc_handleEvent (bc_handleEvent bst be1 bo1).state be2 bo2).netCalls = 0)
    ∧ ((ci_handleEvent (ci_handleEvent cst ce1 co1).state ce2 co2).emissions = []
      ∧ (ci_handleEvent (ci_handleEvent cst ce1 co1).state ce2 co2).netCalls = 0) := by
  refine ⟨?_, ?_, ?_⟩
  · refine pd_noop_of _ _ _ ?_
    rcases pd_after_mem pst pe1 po1 with h | h | h
    · exact Or.inl h
    · exact Or.inr (Or.inl h)
    · exact Or.inr (Or.inr (hpd ▸ h))
  · refine bc_noop_of _ _ _ ?_
    rw [hbh, hbc]
    exact bc_after_mem bst be1 bo1
  · refine ci_noop_of _ _ _ ?_
    rcases ci_after_mem cst ce1 co1 with h | h
    · exact Or.inl (hci ▸ h)
    · exact Or.inr h

theorem c2_witness :
    evB.data = evA.data
    ∧ evW2.data = evW.data
    ∧ bcOracleFix.hashstring = bcOracleFix.hashstring
    ∧ evD.data = evC.data
    ∧ (((pd_handleEvent (pd_handleEvent pdFix evA pdOracleFix).state evB
            pdOracleFix).emissions = []
        ∧ (pd_handleEvent (pd_handleEvent pdFix evA pdOracleFix).state evB
            pdOracleFix).netCalls = 0)
      ∧ ((bc_handleEvent (bc_handleEvent bcFix evW bcOracleFix).state evW2
            bcOracleFix).emissions = []
        ∧ (bc_handleEvent (bc_handleEvent bcFix evW bcOracleFix).state evW2
            bcOracleFix).netCalls = 0)
      ∧ ((ci_handleEvent (ci_handleEvent ciFix evC ciOracleFix).state evD
            ciOracleFix).emissions = []
        ∧ (ci_handleEvent (ci_handleEvent ciFix evC ciOracleFix).state evD
            ciOracleFix).netCalls = 0)) :=
  ⟨rfl, rfl, rfl, rfl,
    c2_amended pdFix evA evB pdOracleFix pdOracleFix bcFix evW evW2
      bcOracleFix bcOracleFix ciFix evC evD ciOracleFix ciOracleFix
      rfl rfl rfl rfl⟩

theorem ci_query_fail (st : CIState) (o : CIOracle) (qry tt : String)
    (hc : o.cache = none) (hf : o.fetchCode ≠ "200" ∨ o.fetchContent = none) :
    (ci_query st o qry tt).2.1 = none := by
  unfold ci_query
  rw [hc]
  by_cases h2 : o.fetchCode = "200"
  · rcases hf with hf | hf
    · exact absurd h2 hf
    · rw [if_neg (by simpa using h2), hf]
  · rw [if_pos h2]

theorem ci_dispatch_fail (st : CIState) (o : CIOracle) (d : String)
    (sel : Option (String × String))
    (h : ∀ tt, (ci_query st o d tt).2.1 = none) :
    (ci_dispatch st o d sel).emissions = [] := by
  cases sel with
  | none => rfl
  | some p =>
    rcases p with ⟨tt, evtType⟩
    simp only [ci_dispatch]
    rcases hq : ci_query st o d tt with ⟨st2, url?, n⟩
    have h2 := h tt
    rw [hq] at h2
    simp only at h2
    subst h2
    rfl

/-- Claim C9, counterexample: a transient source error -- here a failed
fetch of the CINS army list (a non-200 response with no body, the cache
being cold) -- makes `sfp_cinsscore.handleEvent` set the sticky `errorState`
flag, which the claim reserves for persistent errors; the module does
return without emitting. -/
theorem c9_counterexample :
    (ci_handleEvent ⟨[], false, ⟨true, true, true⟩⟩
        ⟨"IP_ADDRESS", "1.2.3.4", "sfp_dnsresolve"⟩ ciOracleFail).state.errorState
      = true
    ∧ (ci_handleEvent ⟨[], false, ⟨true, true, true⟩⟩
        ⟨"IP_ADDRESS", "1.2.3.4", "sfp_dnsresolve"⟩ ciOracleFail).emissions = [] := by
  refine ⟨by decide, by decide⟩

/-- Claim C9 (amended): a transient source error during `handleEvent` makes
the module catch it, log it and return without emitting, and the scan
continues; `sfp_projectdiscovery` leaves the sticky `errorState` unchanged
on a fetch or JSON-parse failure (its `errorState` is reserved for the
missing API key), but `sfp_cinsscore` does set the sticky `errorState` when
fetching its list fails. -/
theorem c9_amended (pst : PDState) (pe : SFEvent) (po : PDOracle)
    (cst : CIState) (ce : SFEvent) (co : CIOracle)
    (hkey : pst.opts.api_key ≠ "")
    (hq : (pd_query po).1 = none)
    (hc : co.cache = none)
    (hf : co.fetchCode ≠ "200" ∨ co.fetchContent = none) :
    ((pd_handleEvent pst pe po).emissions = []
      ∧ (pd_handleEvent pst pe po).state.errorState = pst.errorState)
    ∧ (ci_handleEvent cst ce co).emissions = [] := by
  constructor
  · unfold pd_handleEvent
    split
    · exact ⟨rfl, rfl⟩
    · split
      · exact ⟨rfl, rfl⟩
      · split
        · exact ⟨rfl, rfl⟩
        · split
          · exact ⟨rfl, rfl⟩
          · rename_i heq
            rw [heq] at hq
            simp at hq
  · unfold ci_handleEvent
    split
    · rfl
    · split
      · rfl
      · exact ci_dispatch_fail _ _ _ _ (fun tt => ci_query_fail _ _ _ _ hc hf)

theorem c9_witness :
    pdFix.opts.api_key ≠ ""
    ∧ (pd_query pdOracleFail).1 = none
    ∧ ciOracleFail.cache = none
    ∧ (ciOracleFail.fetchCode ≠ "200" ∨ ciOracleFail.fetchContent = none)
    ∧ (((pd_handleEvent pdFix evB pdOracleFail).emissions = []
        ∧ (pd_handleEvent pdFix evB pdOracleFail).state.errorState
            = pdFix.errorState)
      ∧ (ci_handleEvent ciFix evC ciOracleFail).emissions = []) :=
  ⟨by decide, rfl, rfl, by decide,
    c9_amended pdFix evB pdOracleFail ciFix evC ciOracleFail
      (by decide) rfl rfl (by decide)⟩

/-- Claim C4, counterexample: `sfp_portscan_tcp.setup` on a module instance
carrying state from a previous scan resets the `results` seen set, but
leaves the sticky `errorState` set (the claim requires it back at its
initial value `false`) and appends the newly parsed ports to the existing
class-level `portlist` instead of clearing it (a fresh instance would hold
`[80]`, not `[80, 80]`), so prior-scan state can influence `handleEvent` in
the new scan. -/
theorem c4_counterexample :
    (ps_setup psSetupOracleFix psDirty (fun o => o)).errorState = true
    ∧ (ps_setup psSetupOracleFix psDirty (fun o => o)).portlist = [80, 80]
    ∧ (ps_setup psSetupOracleFix psDirty (fun o => o)).results = [] := by
  refine ⟨by decide, by decide, by decide⟩

/-- Claim C4 (amended): `setup` resets the `results` seen set to empty in
all three cited modules, and `sfp_cinsscore` also resets `errorState` to
`False`; but `sfp_projectdiscovery` and `sfp_portscan_tcp` leave
`errorState` at whatever value the previous scan set, and `sfp_portscan_tcp`
accumulates into `portlist` rather than resetting it, so not every piece of
per-scan mutable state is back at its initial value after `setup`. -/
theorem c4_amended (pst : PDState) (pf : PDOpts → PDOpts)
    (cst : CIState) (cf : CIOpts → CIOpts)
    (sst : PSState) (so : PSSetupOracle) (sfo : PSOpts → PSOpts) :
    ((pd_setup pst pf).results = [] ∧ (pd_setup pst pf).errorState = pst.errorState)
    ∧ ((ci_setup cst cf).results = [] ∧ (ci_setup cst cf).errorState = false)
    ∧ ((ps_setup so sst sfo).results = []
      ∧ (ps_setup so sst sfo).errorState = sst.errorState) :=
  ⟨⟨rfl, rfl⟩, ⟨rfl, rfl⟩, ⟨rfl, rfl⟩⟩

/-- Claim C1: for every well-formed event, the lineage chain obtained by
following `sourceEvent` references contains exactly one event of the
reserved type ROOT, visits no event twice (the lineage is acyclic), and its
last element is the unique root reached from the event, whose type is
ROOT.  A non-root event carries exactly one parent by construction of
`SpiderFootEvent`. -/
theorem c1_lineage_tree (e : SpiderFootEvent) (h : e.wellFormed = true) :
    e.chain.countP (fun x => x.eventType == "ROOT") = 1
      ∧ e.chain.Nodup
      ∧ e.chain.getLast? = some e.rootOf
      ∧ e.rootOf.eventType = "ROOT" :=
  ⟨e.chain_countP_root h, e.chain_nodup, e.chain_getLast?, e.rootOf_eventType⟩

theorem c1_witness :
    evTree.wellFormed = true
      ∧ (evTree.chain.countP (fun x => x.eventType == "ROOT") = 1
        ∧ evTree.chain.Nodup
        ∧ evTree.chain.getLast? = some evTree.rootOf
        ∧ evTree.rootOf.eventType = "ROOT") :=
  ⟨by decide, c1_lineage_tree evTree (by decide)⟩

theorem pd_loop_stop (o : PDOracle) (dat : String) (verify : Bool) :
    ∀ (m : Nat) (subs seen : List String) (k : Nat),
      o.stop (k + m) = true → m ≤ subs.length →
      pd_loop o dat verify subs seen k
        = pd_loop o dat verify (subs.take m) seen k := by
  intro m
  induction m with
  | zero =>
    intro subs seen k hstop _
    cases subs with
    | nil => rfl
    | cons s rest =>
      rw [Nat.add_zero] at hstop
      simp [pd_loop, hstop]
  | succ m ih =>
    intro subs seen k hstop hlen
    cases subs with
    | nil => rfl
    | cons s rest =>
      have hstop' : o.stop ((k + 1) + m) = true := by
        rw [show k + 1 + m = k + (m + 1) from by omega]
        exact hstop
      have hlen' : m ≤ rest.length := by simpa using hlen
      rw [List.take_succ_cons]
      by_cases hk : o.stop k = true
      · simp [pd_loop, hk]
      · by_cases hs : s ∈ seen
        · simp [pd_loop, hk, hs, ih rest seen (k + 1) hstop' hlen']
        · simp [pd_loop, hk, hs, ih rest (s :: seen) (k + 1) hstop' hlen']

theorem ps_portLoop_stop (o : PSOracle) (ip : String) (maxth : Nat) :
    ∀ (m : Nat) (ports : List Int) (i : Nat) (arr : List Int) (k : Nat),
      o.stop (k + m) = true → m < ports.length →
      (ps_portLoop o ip maxth ports i arr k).1
          = (ps_portLoop o ip maxth (ports.take m) i arr k).1
        ∧ (ps_portLoop o ip maxth ports i arr k).2.1 = true := by
  intro m
  induction m with
  | zero =>
    intro ports i arr k hstop hlen
    cases ports with
    | nil => simp at hlen
    | cons p rest =>
      rw [Nat.add_zero] at hstop
      simp [ps_portLoop, hstop]
  | succ m ih =>
    intro ports i arr k hstop hlen
    cases ports with
    | nil => simp at hlen
    | cons p rest =>
      have hstop' : o.stop ((k + 1) + m) = true := by
        rw [show k + 1 + m = k + (m + 1) from by omega]
        exact hstop
      have hlen' : m < rest.length := by simpa using hlen
      rw [List.take_succ_cons]
      by_cases hk : o.stop k = true
      · simp [ps_portLoop, hk]
      · by_cases hi : i < maxth
        · have hih := ih rest (i + 1) (arr ++ [p]) (k + 1) hstop' hlen'
          simp [ps_portLoop, hk, hi, hih.1, hih.2]
        · have hih := ih rest 1 [p] (k + 1) hstop' hlen'
          rcases h1 : ps_portLoop o ip maxth rest 1 [p] (k + 1)
            with ⟨es2, stopped, arr2, k2⟩
          rcases h2 : ps_portLoop o ip maxth (rest.take m) 1 [p] (k + 1)
            with ⟨es2', stopped', arr2', k2'⟩
          rw [h1, h2] at hih
          simp only at hih
          simp [ps_portLoop, hk, hi, h1, h2, hih.1, hih.2]

/-- Claim C5: in any single `handleEvent` call, once `checkForStop` answers
true at a loop checkpoint, the module returns early: the loop behaves as if
the remaining items did not exist (no further iteration starts, nothing
further is emitted, no further network call is made).  For the
per-subdomain loop of `sfp_projectdiscovery`, stopping at checkpoint `k + m`
makes the whole loop result (emissions and resolution calls) equal that of
the loop on only the first `m` subdomains; for the per-port loop of
`sfp_portscan_tcp`, the emitted events equal those of the loop on only the
first `m` ports and the loop reports the stop, which makes `handleEvent`
skip the trailing batch probe and the remaining IPs as well. -/
theorem c5_stop_early
    (o : PDOracle) (dat : String) (verify : Bool) (m : Nat)
    (subs seen : List String) (k : Nat)
    (o2 : PSOracle) (ip : String) (maxth : Nat) (m2 : Nat) (ports : List Int)
    (i : Nat) (arr : List Int) (k2 : Nat)
    (h1 : o.stop (k + m) = true) (h2 : m ≤ subs.length)
    (h3 : o2.stop (k2 + m2) = true) (h4 : m2 < ports.length) :
    pd_loop o dat verify subs seen k = pd_loop o dat verify (subs.take m) seen k
    ∧ (ps_portLoop o2 ip maxth ports i arr k2).1
        = (ps_portLoop o2 ip maxth (ports.take m2) i arr k2).1
    ∧ (ps_portLoop o2 ip maxth ports i arr k2).2.1 = true :=
  ⟨pd_loop_stop o dat verify m subs seen k h1 h2,
    (ps_portLoop_stop o2 ip maxth m2 ports i arr k2 h3 h4).1,
    (ps_portLoop_stop o2 ip maxth m2 ports i arr k2 h3 h4).2⟩

theorem c5_witness :
    pdOracleStop.stop (0 + 1) = true
    ∧ 1 ≤ (["alpha", "beta", "gamma"] : List String).length
    ∧ psOracleStop.stop (0 + 1) = true
    ∧ 1 < ([22, 80] : List Int).length
    ∧ (pd_loop pdOracleStop "example.com" true ["alpha", "beta", "gamma"] [] 0
        = pd_loop pdOracleStop "example.com" true
            ((["alpha", "beta", "gamma"] : List String).take 1) [] 0
      ∧ (ps_portLoop psOracleStop "1.2.3.4" 10 [22, 80] 0 [] 0).1
          = (ps_portLoop psOracleStop "1.2.3.4" 10
              (([22, 80] : List Int).take 1) 0 [] 0).1
      ∧ (ps_portLoop psOracleStop "1.2.3.4" 10 [22, 80] 0 [] 0).2.1 = true) :=
  ⟨rfl, by decide, rfl, by decide,
    c5_stop_early pdOracleStop "example.com" true 1 ["alpha", "beta", "gamma"]
      [] 0 psOracleStop "1.2.3.4" 10 1 [22, 80] 0 [] 0 rfl (by decide) rfl
      (by decide)⟩

/-- Claim C6, counterexample: with `sfp_portscan_tcp` registered, two
dispatch runs over the same fixed module set and the same input target can
produce different ordered sequences of (type, data, generatedBy) tuples,
because `setup` shuffles the port list with `random.SystemRandom()`: the
identity shuffle and the reversal are both outcomes of that draw on the same
two-port list (the shuffled lists are permutations of each other), and the
TCP_PORT_OPEN events then come out in different orders even with identical
scan results and no cancellation. -/
theorem c6_counterexample :
    (ps_setup psSetupOracleFix psFresh (fun o => o)).portlist.Perm
        (ps_setup psShufB psFresh (fun o => o)).portlist
    ∧ (ps_handleEvent (ps_setup psSetupOracleFix psFresh (fun o => o)) evIP
          psRunOracle).2
        ≠ (ps_handleEvent (ps_setup psShufB psFresh (fun o => o)) evIP
          psRunOracle).2 := by
  refine ⟨by decide, by decide⟩

theorem ps_sendEvent_append (o : PSOracle) (ip : String) (a b : List Int) :
    ps_sendEvent o ip (a ++ b) = ps_sendEvent o ip a ++ ps_sendEvent o ip b := by
  simp [ps_sendEvent]

theorem ps_portLoop_noStop (o : PSOracle) (ip : String) (maxth : Nat)
    (hstop : ∀ j, o.stop j = false) :
    ∀ (ports : List Int) (i : Nat) (arr : List Int) (k : Nat),
      (ps_portLoop o ip maxth ports i arr k).2.1 = false
      ∧ (ps_portLoop o ip maxth ports i arr k).1
          ++ ps_sendEvent o ip (ps_portLoop o ip maxth ports i arr k).2.2.1
        = ps_sendEvent o ip (arr ++ ports) := by
  intro ports
  induction ports with
  | nil =>
    intro i arr k
    simp [ps_portLoop]
  | cons p rest ih =>
    intro i arr k
    by_cases hi : i < maxth
    · have hih := ih (i + 1) (arr ++ [p]) (k + 1)
      rw [show arr ++ p :: rest = (arr ++ [p]) ++ rest from by simp]
      simpa [ps_portLoop, hstop k, hi] using hih
    · have hih := ih 1 [p] (k + 1)
      rcases h1 : ps_portLoop o ip maxth rest 1 [p] (k + 1)
        with ⟨es2, stopped, arr2, k2⟩
      rw [h1] at hih
      simp only at hih
      constructor
      · simp [ps_portLoop, hstop k, hi, h1, hih.1]
      · simp only [ps_portLoop, hstop k, hi, h1]
        simp only [Bool.false_eq_true, if_false]
        rw [List.append_assoc, hih.2, ← ps_sendEvent_append]
        simp

theorem ps_scanIp_noStop (o : PSOracle) (maxth : Nat)
    (hstop : ∀ j, o.stop j = false) (ip : String) (ports : List Int) (k : Nat) :
    (ps_scanIp o maxth ip ports k).1 = ps_sendEvent o ip ports
      ∧ (ps_scanIp o maxth ip ports k).2.1 = false := by
  unfold ps_scanIp
  rcases h1 : ps_portLoop o ip maxth ports 0 [] k with ⟨es, stopped, arr, k2⟩
  have hn := ps_portLoop_noStop o ip maxth hstop ports 0 [] k
  rw [h1] at hn
  simp only at hn
  rcases hn with ⟨hs, he⟩
  subst hs
  simpa using he

theorem ps_ipLoop_perm (o : PSOracle) (maxth : Nat)
    (hstop : ∀ j, o.stop j = false) {l1 l2 : List Int} (hperm : l1.Perm l2) :
    ∀ (ips results : List String) (k k2 : Nat),
      (ps_ipLoop o maxth l1 ips results k).2.Perm
        ((ps_ipLoop o maxth l2 ips results k2).2) := by
  intro ips
  induction ips with
  | nil =>
    intro results k k2
    simp [ps_ipLoop]
  | cons ip rest ih =>
    intro results k k2
    by_cases hm : ip ∈ results
    · simp [ps_ipLoop, hm]
    · have s1 := ps_scanIp_noStop o maxth hstop ip l1 k
      have s2 := ps_scanIp_noStop o maxth hstop ip l2 k2
      rcases h1 : ps_scanIp o maxth ip l1 k with ⟨es1, f1, k1'⟩
      rcases h2 : ps_scanIp o maxth ip l2 k2 with ⟨es2, f2, k2'⟩
      rw [h1] at s1
      rw [h2] at s2
      simp only at s1 s2
      rcases s1 with ⟨he1, hf1⟩
      rcases s2 with ⟨he2, hf2⟩
      subst hf1
      subst hf2
      rcases hr1 : ps_ipLoop o maxth l1 rest (ip :: results) k1' with ⟨res1, tail1⟩
      rcases hr2 : ps_ipLoop o maxth l2 rest (ip :: results) k2' with ⟨res2, tail2⟩
      have hih := ih (ip :: results) k1' k2'
      rw [hr1, hr2] at hih
      simp only at hih
      simp [ps_ipLoop, hm, h1, h2, hr1, hr2]
      refine List.Perm.append ?_ hih
      rw [he1, he2]
      exact hperm.flatMap_right _

/-- Claim C6 (amended): the dispatch itself is a pure function of the module
states and oracle answers, but `sfp_portscan_tcp` randomizes its port order
at setup, so two runs differing only in the random draw agree on the
multiset of emitted (type, data, generatedBy) tuples rather than on their
order: for two permuted port lists, with no cancellation and identical scan
results, the emission sequences of `handleEvent` are permutations of each
other. -/
theorem c6_amended (o : PSOracle) (st : PSState) (ev : SFEvent)
    (l1 l2 : List Int)
    (hstop : o.stop = fun _ => false) (hperm : l1.Perm l2) :
    (ps_handleEvent { st with portlist := l1 } ev o).2.Perm
      ((ps_handleEvent { st with portlist := l2 } ev o).2) := by
  have hstop' : ∀ j, o.stop j = false := fun j => by rw [hstop]
  unfold ps_handleEvent
  by_cases herr : st.errorState = true
  · simp [herr]
  · by_cases hl : l1.isEmpty
    · have h1 : l1 = [] := List.isEmpty_iff.mp hl
      have h2 : l2 = [] := (h1 ▸ hperm).symm.eq_nil
      subst h1
      subst h2
      simp [herr]
    · have hl2 : l2.isEmpty = false := by
        rcases l2 with _ | ⟨a, t⟩
        · exact absurd (hperm.eq_nil) (by simpa [List.isEmpty_iff] using hl)
        · rfl
      rcases htg : ps_scanTargets st.opts ev o with _ | ips
      · simp [herr, hl, hl2, htg]
      · rcases hr1 : ps_ipLoop o st.opts.maxthreads l1 ips st.results 0
          with ⟨res1, es1⟩
        rcases hr2 : ps_ipLoop o st.opts.maxthreads l2 ips st.results 0
          with ⟨res2, es2⟩
        have hp := ps_ipLoop_perm o st.opts.maxthreads hstop' hperm ips
          st.results 0 0
        rw [hr1, hr2] at hp
        simp only at hp
        simpa [herr, hl, hl2, htg, hr1, hr2] using hp

theorem c6_witness :
    psRunOracle.stop = (fun _ => false)
    ∧ ([22, 80] : List Int).Perm [80, 22]
    ∧ (ps_handleEvent { psFresh with portlist := [22, 80] } evIP
          psRunOracle).2.Perm
        ((ps_handleEvent { psFresh with portlist := [80, 22] } evIP
          psRunOracle).2) :=
  ⟨rfl, by decide,
    c6_amended psRunOracle psFresh evIP [22, 80] [80, 22] rfl (by decide)⟩
